import Mathlib

/-!
Shallow embedding of the LandBOSSE API entry point
(`landbosse/landbosse_api/run.py`, function `run_landbosse`) and of the
LCOE post-processing script
(`post_processing_scripts/lcoe_module_multiplier.py`).

Python dictionaries are embedded as association lists with unique keys,
where assignment to an existing key rewrites the value in place and
assignment to a fresh key appends it at the end (Python 3.7+ dict
semantics).  Python numbers (`int` / `float`) are embedded as `Int` / `ℚ`;
exact rational arithmetic stands in for IEEE doubles, since every claim
here concerns the algebraic shape of the computation and its control flow,
not rounding.  A fallible statement (a `KeyError` on a missing dictionary
key, a `TypeError` on comparing a string with a number) is embedded as
`Option`/`Except`.  Dataframes are embedded as lists of structure rows.
-/

/-- A scalar value held in one of the API's dictionaries: a Python `int`,
`float` or `str`.  An opaque object stored in a dictionary slot (such as
the parsed weather window) is carried by `vStr` tagging or by `vFloat` of
an arbitrary payload; the claims never look inside it. -/
inductive Value where
  | vInt : Int → Value
  | vFloat : ℚ → Value
  | vStr : String → Value
deriving DecidableEq, Repr

namespace Value

/-- `type(value) == int or type(value) == float) and value < 0` from the
negative-input scan in `run_landbosse`. -/
def isNegNum : Value → Bool
  | vInt n => n < 0
  | vFloat q => q < 0
  | vStr _ => false

/-- Numeric view of a value, for Python comparisons such as
`sam_input_dict['num_turbines'] > 10`.  Comparing a `str` with a number
raises `TypeError` in Python 3, embedded as `none`. -/
def toNum : Value → Option ℚ
  | vInt n => some (n : ℚ)
  | vFloat q => some q
  | vStr _ => none

end Value

/-- A Python dictionary with `Value` entries, as an association list. -/
abbrev Dict := List (String × Value)

/-- Dictionary / association-list update: rewrite in place when the key is
present, append otherwise (Python dict assignment `d[k] = v`). -/
def setKV {α : Type} : List (String × α) → String → α → List (String × α)
  | [], k, v => [(k, v)]
  | (k', v') :: rest, k, v =>
      if k' = k then (k', v) :: rest else (k', v') :: setKV rest k v

/-- Dictionary lookup `d[k]`, `none` meaning `KeyError`. -/
def getKV {α : Type} : List (String × α) → String → Option α
  | [], _ => none
  | (k', v') :: rest, k => if k' = k then some v' else getKV rest k

/-- Number of entries of an association list carrying a given key. -/
def countKey {α : Type} : List (String × α) → String → Nat
  | [], _ => 0
  | (k', _) :: rest, k => (if k' = k then 1 else 0) + countKey rest k

/-- The per-scenario master state of `run_landbosse`: the master input
dictionary (its scalar fields) together with its `'error'` sub-dictionary
(error-kind name ↦ message). -/
structure Master where
  fields : Dict
  error : List (String × String)
deriving DecidableEq, Repr

/-- First key of the scenario input whose value is a negative number.  The
negative-input scan of `run_landbosse` raises `NegativeInputError` inside
the `for key, value in sam_input_dict.items()` loop, so iteration stops at
the first offending entry and the handler sees that key in `key`. -/
def firstNegKey : Dict → Option String
  | [] => none
  | (k, v) :: rest => if v.isNegNum then some k else firstNegKey rest

/-- Message written under `'NegativeInputError'`. -/
def negMsg (k : String) : String :=
  "User entered a negative value for " ++ k ++ ". This is an invalid entry"

/-- The negative-input scan: `try: for key, value in ... if numeric and
value < 0: raise NegativeInputError / except: error['NegativeInputError'] = ...`.
The exception never escapes `run_landbosse`. -/
def negativeStage (sam : Dict) (m : Master) : Master :=
  match firstNegKey sam with
  | some k => { m with error := setKV m.error "NegativeInputError" (negMsg k) }
  | none => m

/-- The unconditional override loop: every caller key except
`'weather_file_path'` is copied into the master input dictionary. -/
def overrideFields (sam : Dict) (fields : Dict) : Dict :=
  sam.foldl (fun fs p => if p.1 = "weather_file_path" then fs else setKV fs p.1 p.2) fields

/-- Message written under `'TurbineNumberError'`. -/
def turbineNumberMsg : String :=
  "User selected less than 10 turbines. LandBOSSE currently provides BOS estimates for 10 or greater number of turbines in a utility scale project."

/-- `try: if sam_input_dict['num_turbines'] > 10: master['num_turbines'] = ...
else: raise TurbineNumberError / except: error['TurbineNumberError'] = ...`.
A missing key or a non-numeric value is an uncaught `KeyError`/`TypeError`
(`none`). -/
def turbineNumberStage (sam : Dict) (m : Master) : Option Master := do
  let v ← getKV sam "num_turbines"
  let q ← v.toNum
  if 10 < q then
    pure { m with fields := setKV m.fields "num_turbines" v }
  else
    pure { m with error := setKV m.error "TurbineNumberError" turbineNumberMsg }

/-- Message written under `'LargeTurbineSizeError'`. -/
def largeTurbineMsg : String :=
  "User selected turbine of rating greater than 8 MW. LandBOSSE provides reasonable results for turbines in range of 1-8 MW rating for now."

/-- Message written under `'SmallTurbineSizeError'`. -/
def smallTurbineMsg : String :=
  "User selected turbine of rating lesser than 1 MW. LandBOSSE provides reasonable results for turbines in range of 1-8 MW rating for now."

/-- The turbine-rating check: rating > 8 raises `LargeTurbineSizeError`,
rating < 1 raises `SmallTurbineSizeError`, both caught into the error
dictionary; only the `else` branch copies the rating into the master
input dictionary. -/
def ratingStage (sam : Dict) (m : Master) : Option Master := do
  let v ← getKV sam "turbine_rating_MW"
  let q ← v.toNum
  if 8 < q then
    pure { m with error := setKV m.error "LargeTurbineSizeError" largeTurbineMsg }
  else if q < 1 then
    pure { m with error := setKV m.error "SmallTurbineSizeError" smallTurbineMsg }
  else
    pure { m with fields := setKV m.fields "turbine_rating_MW" v }

/-- The override-and-validation stage of `run_landbosse`, in source order:
`master_input_dict['error'] = dict()`, the negative-input scan, the
unconditional override loop, the `labor_cost_multiplier` lookup (whose
`KeyError` would escape; the multiplier itself is applied to external
project-data sheets, not to the master dictionary), the turbine-count
check and the turbine-rating check. -/
def overrideAndValidate (sam : Dict) (fields0 : Dict) : Option Master := do
  let m1 := negativeStage sam { fields := fields0, error := [] }
  let m2 : Master := { m1 with fields := overrideFields sam m1.fields }
  let _ ← getKV m2.fields "labor_cost_multiplier"
  let m3 ← turbineNumberStage sam m2
  ratingStage sam m3

/-- The weather-window stage.  The whole normalization block (file read,
timestamp synthesis, positional rename, `read_weather_window`) sits inside
`try: ... except Exception as error:`; its outcome is embedded as an
`Except String Value` — `ok w` stores the parsed window under
`'weather_window'`, `error e` is caught and recorded under
`'Weather_Data'`.  The file and dataframe manipulation itself is I/O and
lives partly outside `src/`, so it is abstracted to this outcome value. -/
def weatherStage (wres : Except String Value) (m : Master) : Master :=
  match wres with
  | Except.ok w => { m with fields := setKV m.fields "weather_window" w }
  | Except.error e => { m with error := setKV m.error "Weather_Data" e }

/-- The component-refactoring stage (nacelle, hub, blades, tower).  The
scaling functions come from `turbine_scaling` (outside `src/`); the stage
is embedded as an opaque rewrite `geom` of the master fields, preceded by
the lookups the stage performs on the master dictionary, whose `KeyError`
would escape. -/
def geometryStage (geom : Dict → Dict) (m : Master) : Option Master := do
  let _ ← getKV m.fields "turbine_rating_MW"
  let _ ← getKV m.fields "hub_height_meters"
  let _ ← getKV m.fields "rotor_diameter_m"
  pure { m with fields := geom m.fields }

/-- Master state after every stage that precedes the orchestrator call. -/
def finalMaster (geom : Dict → Dict) (sam : Dict) (fields0 : Dict)
    (wres : Except String Value) : Option Master := do
  let m4 ← overrideAndValidate sam fields0
  geometryStage geom (weatherStage wres m4)

/-- A value of the result dictionary returned by `run_landbosse`: either
the `'errors'` list of strings or a scalar cost value. -/
inductive RVal where
  | errs : List String → RVal
  | v : Value → RVal
deriving DecidableEq, Repr

/-- The result dictionary returned by `run_landbosse`. -/
abbrev RDict := List (String × RVal)

/-- `"Error in <kind>: <message>"` lines, one per accumulated error, in
error-dictionary order. -/
def errorLines (err : List (String × String)) : List String :=
  err.map fun p => "Error in " ++ p.1 ++ ": " ++ p.2

/-- Result keys filled from the orchestrator's output dictionary before
the development block, as (result key, output key), in assignment order.
`results['total_management_cost']` is assigned twice from the same output
key; the second assignment rewrites the same value in place, so the
dictionary is unchanged by it and the pair appears once here. -/
def specsA : List (String × String) :=
  [("total_bos_cost", "project_value_usd"),
   ("total_management_cost", "total_management_cost"),
   ("insurance_usd", "insurance_usd"),
   ("construction_permitting_usd", "construction_permitting_usd"),
   ("project_management_usd", "project_management_usd"),
   ("bonding_usd", "bonding_usd"),
   ("markup_contingency_usd", "markup_contingency_usd"),
   ("engineering_usd", "engineering_usd"),
   ("site_facility_usd", "site_facility_usd"),
   ("total_development_cost", "summed_development_cost")]

/-- Result keys filled from the orchestrator's output dictionary after the
development block, in assignment order. -/
def specsB : List (String × String) :=
  [("total_sitepreparation_cost", "summed_sitepreparation_cost"),
   ("sitepreparation_equipment_rental_usd", "sitepreparation_equipment_rental_usd"),
   ("sitepreparation_labor_usd", "sitepreparation_labor_usd"),
   ("sitepreparation_material_usd", "sitepreparation_material_usd"),
   ("sitepreparation_mobilization_usd", "sitepreparation_mobilization_usd"),
   ("total_foundation_cost", "summed_foundation_cost"),
   ("foundation_equipment_rental_usd", "foundation_equipment_rental_usd"),
   ("foundation_labor_usd", "foundation_labor_usd"),
   ("foundation_material_usd", "foundation_material_usd"),
   ("foundation_mobilization_usd", "foundation_mobilization_usd"),
   ("total_erection_cost", "total_cost_summed_erection"),
   ("erection_equipment_rental_usd", "erection_equipment_rental_usd"),
   ("erection_labor_usd", "erection_labor_usd"),
   ("erection_material_usd", "erection_material_usd"),
   ("erection_other_usd", "erection_other_usd"),
   ("erection_mobilization_usd", "erection_mobilization_usd"),
   ("erection_fuel_usd", "erection_fuel_usd"),
   ("total_gridconnection_cost", "trans_dist_usd"),
   ("total_collection_cost", "summed_collection_cost"),
   ("collection_equipment_rental_usd", "collection_equipment_rental_usd"),
   ("collection_labor_usd", "collection_labor_usd"),
   ("collection_material_usd", "collection_material_usd"),
   ("collection_mobilization_usd", "collection_mobilization_usd"),
   ("total_substation_cost", "summed_substation_cost")]

/-- Copy a run of output-dictionary keys into result fields; a missing
output key is an uncaught `KeyError`. -/
def fieldsFromOut (out : Dict) : List (String × String) → Option RDict
  | [] => some []
  | (rk, ok) :: rest => do
      let v ← getKV out ok
      let tail ← fieldsFromOut out rest
      pure ((rk, RVal.v v) :: tail)

/-- The three development fields assigned the literal `0`. -/
def devZeros : RDict :=
  [("development_labor_usd", RVal.v (Value.vInt 0)),
   ("development_material_usd", RVal.v (Value.vInt 0)),
   ("development_mobilization_usd", RVal.v (Value.vInt 0))]

/-- The conditional `development_equipment_rental_usd` assignment: guarded
by `'Development labor cost USD' in output_dict`, and filled from the
*master* dictionary's `'development_labor_cost_usd'` (whose `KeyError`
would escape). -/
def devPart (mfields out : Dict) : Option RDict :=
  if (getKV out "Development labor cost USD").isSome then do
    let dv ← getKV mfields "development_labor_cost_usd"
    pure [("development_equipment_rental_usd", RVal.v dv)]
  else
    pure ([] : RDict)

/-- The result projector at the end of `run_landbosse`:
`results['errors'] = []`, then either the error report (when the error
dictionary is non-empty) or the flat cost record. -/
def buildResults (mfields : Dict) (err : List (String × String)) (out : Dict) :
    Option RDict :=
  if err.isEmpty then do
    let a ← fieldsFromOut out specsA
    let dev ← devPart mfields out
    let b ← fieldsFromOut out specsB
    pure (("errors", RVal.errs []) :: (a ++ dev ++ devZeros ++ b))
  else
    some [("errors", RVal.errs (errorLines err))]

/-- `run_landbosse`, from the override stage on (the two packaged Excel
inputs are read before it and enter as `fields0`).  `orch` is
`Manager.execute_landbosse` (external to `src/`), abstracted as a function
from the master fields to the filled output dictionary; the Boolean in the
result records that the orchestrator was invoked on this path.  `none`
models an exception escaping `run_landbosse`. -/
def run_landbosse (geom orch : Dict → Dict) (sam : Dict) (fields0 : Dict)
    (wres : Except String Value) : Option (RDict × Bool) := do
  let m ← finalMaster geom sam fields0 wres
  let out := orch m.fields
  let r ← buildResults m.fields m.error out
  pure (r, true)

/-!
Embedding of `post_processing_scripts/lcoe_module_multiplier.py`.
The three CSV reads enter `main` as row lists; `main` returns
`Except String` where `error` is the script's `raise Exception(...)`.
-/

/-- One row of the BOS cost export, restricted to the columns `main`
selects: `Number of turbines`, `Turbine rating MW`, `Hub height m`,
`Labor cost multiplier`, `Crane breakdown fraction`, `Rotor diameter m`,
`Cost per project`, `Module`. -/
structure CostRow where
  numTurbines : ℚ
  ratingMW : ℚ
  hub : ℚ
  laborMult : ℚ
  crane : ℚ
  rotor : ℚ
  cost : ℚ
  module : String
deriving DecidableEq, Repr

/-- A `CostRow` tagged with the `Modifications` column added by
`preprocess_bos_module_cost`. -/
structure ModRow extends CostRow where
  modifications : String
deriving DecidableEq, Repr

/-- `preprocess_bos_module_cost`: tag the input rows `'Conventional'`,
then for each `module_alias` in `['Erection', 'Foundation']` append one
copy of every row tagged `'<module_alias> 50%'`, halving
`Cost per project` exactly on rows whose `Module` equals
`f'{module_alias}Cost'`.  The nested `for` loops with
`modified_list.append(new_row)` are mirrored by nested left folds that
append one row at a time; the loop body computing `new_row` is the helper
`branchRow`. -/
def branchRow (module_alias : String) (row : ModRow) : ModRow :=
  let nr : ModRow := { row with modifications := module_alias ++ " 50%" }
  if nr.module = module_alias ++ "Cost" then { nr with cost := nr.cost * (1 / 2) }
  else nr

def preprocess_bos_module_cost (df : List CostRow) : List ModRow :=
  let original : List ModRow := df.map fun r => { toCostRow := r, modifications := "Conventional" }
  let modified : List ModRow :=
    (["Erection", "Foundation"]).foldl
      (fun acc module_alias =>
        original.foldl (fun acc2 row => acc2 ++ [branchRow module_alias row]) acc)
      []
  original ++ modified

/-- The composite aggregation key of `bos.groupby([...])`: rating in kW
(`Turbine rating MW * 1000`), rotor diameter, turbine count, hub height,
labor cost multiplier, crane breakdown fraction, modification label. -/
structure GroupKey where
  ratingKW : ℚ
  rotor : ℚ
  numTurbines : ℚ
  hub : ℚ
  laborMult : ℚ
  crane : ℚ
  modifications : String
deriving DecidableEq, Repr

/-- Aggregation key of one branched BOS row. -/
def keyOf (r : ModRow) : GroupKey :=
  ⟨r.ratingMW * 1000, r.rotor, r.numTurbines, r.hub, r.laborMult, r.crane, r.modifications⟩

/-- One row of the grouped BOS table: the key plus the summed
`BOS Capex [USD]` (the renamed `Cost per project`; the non-numeric
`Module` column is a nuisance column dropped by the pandas `sum`). -/
structure BosSumRow where
  key : GroupKey
  bosCapex : ℚ
deriving DecidableEq, Repr

/-- `groupby(...).sum().reset_index()`: one row per distinct key, holding
the sum of `Cost per project` over that key's group.  (pandas emits the
groups in sorted key order; the claims are insensitive to row order, so
the distinct keys are enumerated by `dedup` here.) -/
def groupSum (rows : List ModRow) : List BosSumRow :=
  ((rows.map keyOf).dedup).map fun k =>
    ⟨k, ((rows.filter fun r => decide (keyOf r = k)).map fun r => r.cost).sum⟩

/-- One row of `aep.csv`: key columns and `AEP [kWh/yr]`. -/
structure AepRow where
  rating : ℚ
  rotor : ℚ
  hub : ℚ
  aep : ℚ
deriving DecidableEq, Repr

/-- One row of `tcc.csv`: key columns and `TCC [USD/kW]`. -/
structure TccRow where
  rating : ℚ
  rotor : ℚ
  hub : ℚ
  tcc : ℚ
deriving DecidableEq, Repr

/-- One row of the inner join `aep.merge(tcc, on=['Rating [kW]',
'Rotor Diam [m]', 'Hub height [m]'])`. -/
structure AtRow where
  rating : ℚ
  rotor : ℚ
  hub : ℚ
  aep : ℚ
  tcc : ℚ
deriving DecidableEq, Repr

/-- The AEP ⋈ TCC inner join on (rating kW, rotor diameter, hub height). -/
def mergeAepTcc (aep : List AepRow) (tcc : List TccRow) : List AtRow :=
  (aep.map fun a =>
    ((tcc.filter fun t => decide (t.rating = a.rating ∧ t.rotor = a.rotor ∧ t.hub = a.hub)).map
      fun t => ⟨a.rating, a.rotor, a.hub, a.aep, t.tcc⟩)).flatten

/-- The final inner join `aep_tcc.merge(bos_sum, on=['Rating [kW]',
'Hub height [m]'])`, kept as row pairs; the rotor-diameter columns of the
two sides survive as distinct suffixed columns because rotor diameter is
not a key of this join. -/
def mergeLcoe (at_ : List AtRow) (bs : List BosSumRow) : List (AtRow × BosSumRow) :=
  (at_.map fun a =>
    ((bs.filter fun b => decide (b.key.ratingKW = a.rating ∧ b.key.hub = a.hub)).map
      fun b => (a, b))).flatten

/-- One row of the final LCOE table. -/
structure LcoeRow where
  rating : ℚ
  hub : ℚ
  rotorAep : ℚ
  aep : ℚ
  tcc : ℚ
  rotorBos : ℚ
  numTurbines : ℚ
  laborMult : ℚ
  crane : ℚ
  modifications : String
  bosCapex : ℚ
  fcr : ℚ
  opexRate : ℚ
  totalOpex : ℚ
  turbineCapex : ℚ
  lcoe : ℚ
deriving DecidableEq, Repr

/-- The column computations at the end of `main`: `FCR [/yr] = 0.079`,
`Opex [USD/kW/yr] = 52.0`, `Total Opex`, `Turbine Capex` and
`LCOE [USD/kWh]` per joined row. -/
def computeCols (p : AtRow × BosSumRow) : LcoeRow :=
  let a := p.1
  let b := p.2
  let fcr : ℚ := 79 / 1000
  let opexRate : ℚ := 52
  let totalOpex := opexRate * a.rating * b.key.numTurbines
  let turbineCapex := a.tcc * a.rating * b.key.numTurbines
  let lcoeVal := ((b.bosCapex + turbineCapex) * fcr + totalOpex) / (a.aep * b.key.numTurbines)
  ⟨a.rating, a.hub, a.rotor, a.aep, a.tcc, b.key.rotor, b.key.numTurbines, b.key.laborMult,
   b.key.crane, b.key.modifications, b.bosCapex, fcr, opexRate, totalOpex, turbineCapex, lcoeVal⟩

/-- The `main` function of the LCOE script (named `lcoe_main` here since a
Lean `main` must be an entry point): branch the BOS rows, group and sum them,
join AEP with TCC (raising `'aep_tcc merge is empty'` when that join has
no rows), join the result with the grouped BOS table, then — note: testing
`len(bos_sum)`, not the final join — raise `'bos_sum is empty.'` when the
grouped BOS table has no rows, and finally compute the LCOE columns. -/
def lcoe_main (aep : List AepRow) (tcc : List TccRow) (bos : List CostRow) :
    Except String (List LcoeRow) :=
  let bosP := preprocess_bos_module_cost bos
  let bos_sum := groupSum bosP
  let aep_tcc := mergeAepTcc aep tcc
  if aep_tcc.length = 0 then Except.error "aep_tcc merge is empty"
  else
    let lcoe := mergeLcoe aep_tcc bos_sum
    if bos_sum.length = 0 then Except.error "bos_sum is empty."
    else Except.ok (lcoe.map computeCols)

/-! ### Association-list lemmas -/

theorem getKV_setKV_self {α : Type} (l : List (String × α)) (k : String) (v : α) :
    getKV (setKV l k v) k = some v := by
  induction l with
  | nil => simp [setKV, getKV]
  | cons p rest ih =>
      obtain ⟨k', v'⟩ := p
      by_cases h : k' = k
      · subst h
        simp [setKV, getKV]
      · simp [setKV, getKV, h, ih]

theorem getKV_setKV_ne {α : Type} (l : List (String × α)) {k' k : String} (v : α)
    (h : k' ≠ k) : getKV (setKV l k' v) k = getKV l k := by
  induction l with
  | nil => simp [setKV, getKV, h]
  | cons p rest ih =>
      obtain ⟨k₀, v₀⟩ := p
      by_cases h0 : k₀ = k'
      · subst h0
        simp [setKV, getKV, h]
      · simp [setKV, getKV, h0, ih]

theorem countKey_setKV_ne {α : Type} (l : List (String × α)) {k' k : String} (v : α)
    (h : k' ≠ k) : countKey (setKV l k' v) k = countKey l k := by
  induction l with
  | nil => simp [setKV, countKey, h]
  | cons p rest ih =>
      obtain ⟨k₀, v₀⟩ := p
      by_cases h0 : k₀ = k'
      · subst h0
        simp [setKV, countKey]
      · simp [setKV, h0, countKey, ih]

theorem setKV_ne_nil {α : Type} (l : List (String × α)) (k : String) (v : α) :
    setKV l k v ≠ [] := by
  cases l with
  | nil => simp [setKV]
  | cons p rest =>
      obtain ⟨k', v'⟩ := p
      by_cases h : k' = k <;> simp [setKV, h]

theorem getKV_none_of_not_mem {α : Type} {l : List (String × α)} {k : String}
    (h : k ∉ l.map Prod.fst) : getKV l k = none := by
  induction l with
  | nil => simp [getKV]
  | cons p rest ih =>
      simp only [List.map_cons, List.mem_cons] at h
      push_neg at h
      have h1 : p.1 ≠ k := fun hc => h.1 hc.symm
      obtain ⟨k', v'⟩ := p
      simp only [getKV, if_neg h1]
      exact ih h.2

theorem isSome_getKV_of_mem {α : Type} {l : List (String × α)} {k : String}
    (h : k ∈ l.map Prod.fst) : (getKV l k).isSome = true := by
  induction l with
  | nil => simp at h
  | cons p rest ih =>
      obtain ⟨k', v'⟩ := p
      by_cases hk : k' = k
      · simp [getKV, hk]
      · simp only [List.map_cons, List.mem_cons] at h
        rcases h with h | h
        · exact absurd h.symm hk
        · simp [getKV, hk, ih h]

theorem getKV_append_of_none {α : Type} {l₁ : List (String × α)} (l₂ : List (String × α))
    {k : String} (h : getKV l₁ k = none) : getKV (l₁ ++ l₂) k = getKV l₂ k := by
  induction l₁ with
  | nil => simp
  | cons p rest ih =>
      obtain ⟨k', v'⟩ := p
      by_cases hk : k' = k
      · simp [getKV, hk] at h
      · simp only [getKV, if_neg hk] at h
        simpa [getKV, hk] using ih h

theorem isSome_getKV_append_left {α : Type} {l₁ : List (String × α)} (l₂ : List (String × α))
    {k : String} (h : (getKV l₁ k).isSome = true) :
    (getKV (l₁ ++ l₂) k).isSome = true := by
  induction l₁ with
  | nil => simp [getKV] at h
  | cons p rest ih =>
      obtain ⟨k', v'⟩ := p
      by_cases hk : k' = k
      · simp [getKV, hk]
      · simp only [getKV, if_neg hk] at h
        simpa [getKV, hk] using ih h

theorem isSome_getKV_append_right {α : Type} (l₁ : List (String × α)) {l₂ : List (String × α)}
    {k : String} (h : (getKV l₂ k).isSome = true) :
    (getKV (l₁ ++ l₂) k).isSome = true := by
  induction l₁ with
  | nil => simpa
  | cons p rest ih =>
      obtain ⟨k', v'⟩ := p
      by_cases hk : k' = k
      · simp [getKV, hk]
      · simpa [getKV, hk] using ih

theorem isSome_getKV_cons {α : Type} (p : String × α) {l : List (String × α)} {k : String}
    (h : (getKV l k).isSome = true) : (getKV (p :: l) k).isSome = true := by
  obtain ⟨k', v'⟩ := p
  by_cases hk : k' = k <;> simp [getKV, hk, h]

/-! ### Stage-analysis lemmas for `run_landbosse` -/

theorem negativeStage_fields (sam : Dict) (m : Master) :
    (negativeStage sam m).fields = m.fields := by
  unfold negativeStage
  cases firstNegKey sam <;> rfl

theorem negativeStage_error_of_first {sam : Dict} {k : String} (m : Master)
    (h : firstNegKey sam = some k) :
    (negativeStage sam m).error = setKV m.error "NegativeInputError" (negMsg k) := by
  unfold negativeStage
  rw [h]

theorem overrideFields_cons (p : String × Value) (sam : Dict) (f : Dict) :
    overrideFields (p :: sam) f
      = overrideFields sam (if p.1 = "weather_file_path" then f else setKV f p.1 p.2) := rfl

theorem optionBind_eq_some {α β : Type} {x : Option α} {f : α → Option β} {b : β}
    (h : (x >>= f) = some b) : ∃ a, x = some a ∧ f a = some b := by
  cases x with
  | none => exact Option.noConfusion h
  | some a => exact ⟨a, rfl, h⟩

theorem overrideFields_not_mem {sam : Dict} {k : String} (f : Dict)
    (h : k ∉ sam.map Prod.fst) : getKV (overrideFields sam f) k = getKV f k := by
  induction sam generalizing f with
  | nil => rfl
  | cons p rest ih =>
      simp only [List.map_cons, List.mem_cons] at h
      push_neg at h
      rw [overrideFields_cons, ih _ h.2]
      split
      · rfl
      · exact getKV_setKV_ne f p.2 fun hc => h.1 hc.symm

theorem overrideFields_getKV {sam : Dict} {k : String} {v : Value} (f : Dict)
    (hnd : (sam.map Prod.fst).Nodup)
    (hk : getKV sam k = some v) (hw : k ≠ "weather_file_path") :
    getKV (overrideFields sam f) k = some v := by
  induction sam generalizing f with
  | nil => simp [getKV] at hk
  | cons p rest ih =>
      obtain ⟨k', v'⟩ := p
      rw [overrideFields_cons]
      by_cases hkk : k' = k
      · subst hkk
        have hk' : v' = v := by simpa [getKV] using hk
        subst hk'
        rw [List.map_cons] at hnd
        have hnr : k' ∉ rest.map Prod.fst := (List.nodup_cons.mp hnd).1
        rw [overrideFields_not_mem _ hnr]
        simp only [if_neg hw]
        exact getKV_setKV_self f k' v'
      · simp only [getKV, if_neg hkk] at hk
        rw [List.map_cons] at hnd
        have hnd' : (rest.map Prod.fst).Nodup := (List.nodup_cons.mp hnd).2
        exact ih _ hnd' hk

theorem turbineNumberStage_cases {sam : Dict} {m m' : Master}
    (h : turbineNumberStage sam m = some m') :
    (∃ v, getKV sam "num_turbines" = some v ∧
        m' = { m with fields := setKV m.fields "num_turbines" v }) ∨
      m' = { m with error := setKV m.error "TurbineNumberError" turbineNumberMsg } := by
  unfold turbineNumberStage at h
  obtain ⟨v, hv, h⟩ := optionBind_eq_some h
  obtain ⟨q, hq, h⟩ := optionBind_eq_some h
  split at h
  · exact Or.inl ⟨v, hv, (Option.some.inj h).symm⟩
  · exact Or.inr (Option.some.inj h).symm

theorem ratingStage_cases {sam : Dict} {m m' : Master}
    (h : ratingStage sam m = some m') :
    (∃ v, getKV sam "turbine_rating_MW" = some v ∧
        m' = { m with fields := setKV m.fields "turbine_rating_MW" v }) ∨
      m' = { m with error := setKV m.error "LargeTurbineSizeError" largeTurbineMsg } ∨
      m' = { m with error := setKV m.error "SmallTurbineSizeError" smallTurbineMsg } := by
  unfold ratingStage at h
  obtain ⟨v, hv, h⟩ := optionBind_eq_some h
  obtain ⟨q, hq, h⟩ := optionBind_eq_some h
  split at h
  · exact Or.inr (Or.inl (Option.some.inj h).symm)
  · split at h
    · exact Or.inr (Or.inr (Option.some.inj h).symm)
    · exact Or.inl ⟨v, hv, (Option.some.inj h).symm⟩

theorem overrideAndValidate_decomp {sam fields0 : Dict} {m : Master}
    (h : overrideAndValidate sam fields0 = some m) :
    ∃ m3 : Master,
      turbineNumberStage sam
        { fields := overrideFields sam fields0,
          error := (negativeStage sam { fields := fields0, error := [] }).error } = some m3 ∧
      ratingStage sam m3 = some m := by
  simp only [overrideAndValidate, negativeStage_fields] at h
  obtain ⟨_, _, h⟩ := optionBind_eq_some h
  obtain ⟨m3, h3, hm⟩ := optionBind_eq_some h
  exact ⟨m3, h3, hm⟩

theorem someBind {α β : Type} (a : α) (f : α → Option β) : (some a >>= f) = f a := rfl

theorem turbineNumberStage_fail {sam : Dict} {vn : Value} {qn : ℚ} (m : Master)
    (hn : getKV sam "num_turbines" = some vn) (hq : vn.toNum = some qn)
    (h10 : ¬ 10 < qn) :
    turbineNumberStage sam m
      = some { m with error := setKV m.error "TurbineNumberError" turbineNumberMsg } := by
  unfold turbineNumberStage
  rw [hn]
  simp only [someBind]
  rw [hq]
  simp only [someBind]
  rw [if_neg h10]
  rfl

theorem ratingStage_large {sam : Dict} {vr : Value} {qr : ℚ} (m : Master)
    (hr : getKV sam "turbine_rating_MW" = some vr) (hq : vr.toNum = some qr)
    (h8 : 8 < qr) :
    ratingStage sam m
      = some { m with error := setKV m.error "LargeTurbineSizeError" largeTurbineMsg } := by
  unfold ratingStage
  rw [hr]
  simp only [someBind]
  rw [hq]
  simp only [someBind]
  rw [if_pos h8]
  rfl

theorem overrideAndValidate_run {sam fields0 : Dict} {m3 m4 : Master}
    (hl : (getKV (overrideFields sam fields0) "labor_cost_multiplier").isSome = true)
    (h3 : turbineNumberStage sam
        { fields := overrideFields sam fields0,
          error := (negativeStage sam { fields := fields0, error := [] }).error } = some m3)
    (h4 : ratingStage sam m3 = some m4) :
    overrideAndValidate sam fields0 = some m4 := by
  obtain ⟨lv, hlv⟩ := Option.isSome_iff_exists.mp hl
  simp only [overrideAndValidate, negativeStage_fields]
  rw [hlv]
  simp only [someBind]
  rw [h3]
  simp only [someBind]
  exact h4

theorem turbineNumberStage_error {sam : Dict} {m m' : Master}
    (h : turbineNumberStage sam m = some m') :
    m'.error = m.error ∨
      m'.error = setKV m.error "TurbineNumberError" turbineNumberMsg := by
  rcases turbineNumberStage_cases h with ⟨v, _, rfl⟩ | rfl
  · exact Or.inl rfl
  · exact Or.inr rfl

theorem ratingStage_error {sam : Dict} {m m' : Master}
    (h : ratingStage sam m = some m') :
    m'.error = m.error ∨
      m'.error = setKV m.error "LargeTurbineSizeError" largeTurbineMsg ∨
      m'.error = setKV m.error "SmallTurbineSizeError" smallTurbineMsg := by
  rcases ratingStage_cases h with ⟨v, _, rfl⟩ | rfl | rfl
  · exact Or.inl rfl
  · exact Or.inr (Or.inl rfl)
  · exact Or.inr (Or.inr rfl)

theorem turbineNumberStage_preserves_field {sam : Dict} {m m' : Master} {k : String}
    (h : turbineNumberStage sam m = some m') (hk : k ≠ "num_turbines") :
    getKV m'.fields k = getKV m.fields k := by
  rcases turbineNumberStage_cases h with ⟨v, _, rfl⟩ | rfl
  · exact getKV_setKV_ne _ _ fun hc => hk hc.symm
  · rfl

theorem ratingStage_preserves_field {sam : Dict} {m m' : Master} {k : String}
    (h : ratingStage sam m = some m') (hk : k ≠ "turbine_rating_MW") :
    getKV m'.fields k = getKV m.fields k := by
  rcases ratingStage_cases h with ⟨v, _, rfl⟩ | rfl | rfl
  · exact getKV_setKV_ne _ _ fun hc => hk hc.symm
  · rfl
  · rfl

theorem firstNegKey_isSome {sam : Dict} (h : ∃ p ∈ sam, p.2.isNegNum = true) :
    ∃ k, firstNegKey sam = some k := by
  induction sam with
  | nil => simp at h
  | cons p rest ih =>
      obtain ⟨k0, v0⟩ := p
      by_cases hp : v0.isNegNum
      · exact ⟨k0, by simp [firstNegKey, hp]⟩
      · obtain ⟨q, hq, hneg⟩ := h
        rcases List.mem_cons.mp hq with rfl | hq'
        · exact absurd hneg hp
        · obtain ⟨k, hk⟩ := ih ⟨q, hq', hneg⟩
          exact ⟨k, by simpa [firstNegKey, hp] using hk⟩

theorem firstNegKey_append {k : String} {v : Value} (post : Dict) :
    ∀ pre : Dict, (∀ p ∈ pre, p.2.isNegNum = false) → v.isNegNum = true →
      firstNegKey (pre ++ (k, v) :: post) = some k := by
  intro pre
  induction pre with
  | nil => intro _ hv; simp [firstNegKey, hv]
  | cons p rest ih =>
      intro hpre hv
      obtain ⟨k0, v0⟩ := p
      have h0 := hpre (k0, v0) (by simp)
      simp only [List.cons_append, firstNegKey, h0]
      simpa using ih (fun q hq => hpre q (List.mem_cons_of_mem _ hq)) hv

/-! ### Claims C1–C3 -/

/-- Scenario input for the C1 counterexample: turbine count 5 (≤ 10) and
rating 9 MW (> 8), both failing their checks. -/
def c1Sam : Dict :=
  [("labor_cost_multiplier", Value.vInt 1), ("num_turbines", Value.vInt 5),
   ("turbine_rating_MW", Value.vInt 9)]

/-- Pre-override master fields for the C1 counterexample. -/
def c1Fields0 : Dict :=
  [("num_turbines", Value.vInt 100), ("turbine_rating_MW", Value.vFloat 2)]

/-- Master state after the override-and-validation stage on the C1
counterexample input. -/
def c1M : Master :=
  { fields := [("num_turbines", Value.vInt 5), ("turbine_rating_MW", Value.vInt 9),
      ("labor_cost_multiplier", Value.vInt 1)],
    error := [("TurbineNumberError", turbineNumberMsg),
      ("LargeTurbineSizeError", largeTurbineMsg)] }

/-- C1, counterexample: with failing overrides `num_turbines = 5` and
`turbine_rating_MW = 9` over pre-override values `100` and `2.0`, both
checks fail, yet after the override-and-validation stage the master map
holds the failing override values 5 and 9 — not the pre-override values —
because the unconditional override loop runs before the checks. -/
theorem c1_failing_override_written :
    overrideAndValidate c1Sam c1Fields0 = some c1M ∧
    getKV c1M.error "TurbineNumberError" = some turbineNumberMsg ∧
    getKV c1M.error "LargeTurbineSizeError" = some largeTurbineMsg ∧
    getKV c1Fields0 "num_turbines" = some (Value.vInt 100) ∧
    getKV c1M.fields "num_turbines" = some (Value.vInt 5) ∧
    getKV c1Fields0 "turbine_rating_MW" = some (Value.vFloat 2) ∧
    getKV c1M.fields "turbine_rating_MW" = some (Value.vInt 9) ∧
    Value.vInt 5 ≠ Value.vInt 100 ∧ Value.vInt 9 ≠ Value.vFloat 2 := by
  decide

/-- C1 (amended): after the override-and-validation stage the master map's
`'num_turbines'` / `'turbine_rating_MW'` fields hold the caller's override
value whenever the scenario input provides one — also when the
corresponding check fails — because the unconditional override loop copies
every non-weather key into the master map before the checks run; the
checks' conditional writes only re-write the same value. -/
theorem c1_override_always_written (sam fields0 : Dict) (m : Master)
    (hnd : (sam.map Prod.fst).Nodup)
    (h : overrideAndValidate sam fields0 = some m) :
    (∀ v, getKV sam "num_turbines" = some v → getKV m.fields "num_turbines" = some v) ∧
    (∀ v, getKV sam "turbine_rating_MW" = some v →
      getKV m.fields "turbine_rating_MW" = some v) := by
  obtain ⟨m3, h3, hm⟩ := overrideAndValidate_decomp h
  constructor
  · intro v hv
    have hbase : getKV (overrideFields sam fields0) "num_turbines" = some v :=
      overrideFields_getKV _ hnd hv (by decide)
    have h3f : getKV m3.fields "num_turbines" = some v := by
      rcases turbineNumberStage_cases h3 with ⟨v3, hv3, rfl⟩ | rfl
      · rw [hv] at hv3
        obtain rfl := Option.some.inj hv3
        exact getKV_setKV_self _ _ _
      · exact hbase
    rw [ratingStage_preserves_field hm (by decide)]
    exact h3f
  · intro v hv
    have hbase : getKV (overrideFields sam fields0) "turbine_rating_MW" = some v :=
      overrideFields_getKV _ hnd hv (by decide)
    have h3f : getKV m3.fields "turbine_rating_MW" = some v := by
      rw [turbineNumberStage_preserves_field h3 (by decide)]
      exact hbase
    rcases ratingStage_cases hm with ⟨v4, hv4, rfl⟩ | rfl | rfl
    · rw [hv] at hv4
      obtain rfl := Option.some.inj hv4
      exact getKV_setKV_self _ _ _
    · exact h3f
    · exact h3f

/-- C1 witness: the amended theorem applied to the concrete failing input. -/
theorem c1_override_always_written_witness :
    getKV c1M.fields "num_turbines" = some (Value.vInt 5) ∧
    getKV c1M.fields "turbine_rating_MW" = some (Value.vInt 9) := by
  have h := c1_override_always_written c1Sam c1Fields0 c1M (by decide) (by decide)
  exact ⟨h.1 _ (by decide), h.2 _ (by decide)⟩

/-- C2: when the scenario input carries a negative numeric override, a
turbine count ≤ 10 and a rating > 8 MW simultaneously, the three checks
all fire independently: `'NegativeInputError'`, `'TurbineNumberError'`
and `'LargeTurbineSizeError'` are all present as keys of the error map of
the same run, and the stage completes (no exception escapes). -/
theorem c2_validation_accumulates (sam fields0 : Dict)
    (hneg : ∃ p ∈ sam, p.2.isNegNum = true)
    (vn : Value) (qn : ℚ) (hn : getKV sam "num_turbines" = some vn)
    (hqn : vn.toNum = some qn) (h10 : qn ≤ 10)
    (vr : Value) (qr : ℚ) (hr : getKV sam "turbine_rating_MW" = some vr)
    (hqr : vr.toNum = some qr) (h8 : 8 < qr)
    (hl : (getKV (overrideFields sam fields0) "labor_cost_multiplier").isSome = true) :
    (overrideAndValidate sam fields0).map (fun m =>
        ((getKV m.error "NegativeInputError").isSome,
         (getKV m.error "TurbineNumberError").isSome,
         (getKV m.error "LargeTurbineSizeError").isSome))
      = some (true, true, true) := by
  obtain ⟨k, hk⟩ := firstNegKey_isSome hneg
  have h3 := turbineNumberStage_fail
    (m := { fields := overrideFields sam fields0,
            error := (negativeStage sam { fields := fields0, error := [] }).error })
    hn hqn (not_lt.mpr h10)
  have h4 := ratingStage_large
    (m := { fields := overrideFields sam fields0,
            error := setKV (negativeStage sam { fields := fields0, error := [] }).error
              "TurbineNumberError" turbineNumberMsg })
    hr hqr h8
  have hrun := overrideAndValidate_run hl h3 h4
  rw [hrun]
  have hE : (negativeStage sam { fields := fields0, error := [] }).error
      = [("NegativeInputError", negMsg k)] := by
    rw [negativeStage_error_of_first _ hk]
    rfl
  simp only [Option.map_some', hE]
  refine congrArg some ?_
  refine Prod.ext ?_ (Prod.ext ?_ ?_)
  · rw [getKV_setKV_ne _ _ (by decide), getKV_setKV_ne _ _ (by decide)]
    simp [getKV]
  · rw [getKV_setKV_ne _ _ (by decide), getKV_setKV_self]
    rfl
  · rw [getKV_setKV_self]
    rfl

/-- Scenario input for the C2 witness: negative depth, 5 turbines, 9 MW. -/
def c2Sam : Dict :=
  [("depth", Value.vFloat (-1)), ("num_turbines", Value.vInt 5),
   ("turbine_rating_MW", Value.vInt 9), ("labor_cost_multiplier", Value.vInt 1)]

/-- C2 witness: the accumulation theorem applied to a concrete input that
fails all three checks at once. -/
theorem c2_validation_accumulates_witness :
    (overrideAndValidate c2Sam []).map (fun m =>
        ((getKV m.error "NegativeInputError").isSome,
         (getKV m.error "TurbineNumberError").isSome,
         (getKV m.error "LargeTurbineSizeError").isSome))
      = some (true, true, true) :=
  c2_validation_accumulates c2Sam [] (by decide) (Value.vInt 5) 5 (by decide) (by decide)
    (by decide) (Value.vInt 9) 9 (by decide) (by decide) (by decide) (by decide)

/-- Scenario input for the C3 counterexample: two negative overrides,
`'a'` first and `'b'` last in iteration order. -/
def c3Sam : Dict :=
  [("a", Value.vInt (-1)), ("b", Value.vInt (-2)), ("num_turbines", Value.vInt 100),
   ("turbine_rating_MW", Value.vInt 2), ("labor_cost_multiplier", Value.vInt 1)]

/-- Master state after the override-and-validation stage on the C3
counterexample input. -/
def c3M : Master :=
  { fields := [("a", Value.vInt (-1)), ("b", Value.vInt (-2)),
      ("num_turbines", Value.vInt 100), ("turbine_rating_MW", Value.vInt 2),
      ("labor_cost_multiplier", Value.vInt 1)],
    error := [("NegativeInputError", negMsg "a")] }

/-- C3, counterexample: with two negative overrides, `'a'` (first) and
`'b'` (last), the single recorded `'NegativeInputError'` message names the
*first* negative key `'a'`, not the last one `'b'`: the scan raises at the
first offending entry, so the handler's loop variable holds that key. -/
theorem c3_counterexample :
    overrideAndValidate c3Sam [] = some c3M ∧
    (Value.vInt (-2)).isNegNum = true ∧
    countKey c3M.error "NegativeInputError" = 1 ∧
    getKV c3M.error "NegativeInputError" = some (negMsg "a") ∧
    negMsg "a" ≠ negMsg "b" := by
  decide

/-- C3 (amended): when the scenario input contains at least one negative
numeric override, the stage records exactly one `'NegativeInputError'`
entry, whose message names the *first* negative key in override iteration
order (the entry `(k, v)` preceded only by non-negative values). -/
theorem c3_first_negative_reported (pre post : Dict) (k : String) (v : Value)
    (fields0 : Dict) (m : Master)
    (hpre : ∀ p ∈ pre, p.2.isNegNum = false)
    (hv : v.isNegNum = true)
    (h : overrideAndValidate (pre ++ (k, v) :: post) fields0 = some m) :
    countKey m.error "NegativeInputError" = 1 ∧
    getKV m.error "NegativeInputError" = some (negMsg k) := by
  have hfk : firstNegKey (pre ++ (k, v) :: post) = some k :=
    firstNegKey_append post pre hpre hv
  obtain ⟨m3, h3, hm⟩ := overrideAndValidate_decomp h
  have hE : (negativeStage (pre ++ (k, v) :: post) { fields := fields0, error := [] }).error
      = [("NegativeInputError", negMsg k)] := by
    rw [negativeStage_error_of_first _ hfk]
    rfl
  have base : countKey [("NegativeInputError", negMsg k)] "NegativeInputError" = 1 ∧
      getKV [("NegativeInputError", negMsg k)] "NegativeInputError" = some (negMsg k) := by
    constructor <;> simp [countKey, getKV]
  have h3e : countKey m3.error "NegativeInputError" = 1 ∧
      getKV m3.error "NegativeInputError" = some (negMsg k) := by
    rcases turbineNumberStage_error h3 with he | he <;> rw [he] <;> simp only [hE]
    · exact base
    · exact ⟨by rw [countKey_setKV_ne _ _ (by decide)]; exact base.1,
        by rw [getKV_setKV_ne _ _ (by decide)]; exact base.2⟩
  rcases ratingStage_error hm with he | he | he <;> rw [he]
  · exact h3e
  · exact ⟨by rw [countKey_setKV_ne _ _ (by decide)]; exact h3e.1,
      by rw [getKV_setKV_ne _ _ (by decide)]; exact h3e.2⟩
  · exact ⟨by rw [countKey_setKV_ne _ _ (by decide)]; exact h3e.1,
      by rw [getKV_setKV_ne _ _ (by decide)]; exact h3e.2⟩

/-- C3 witness: the amended theorem applied to the concrete two-negative
input; the unique recorded entry names `'a'`. -/
theorem c3_first_negative_reported_witness :
    countKey c3M.error "NegativeInputError" = 1 ∧
    getKV c3M.error "NegativeInputError" = some (negMsg "a") :=
  c3_first_negative_reported [] [("b", Value.vInt (-2)), ("num_turbines", Value.vInt 100),
      ("turbine_rating_MW", Value.vInt 2), ("labor_cost_multiplier", Value.vInt 1)]
    "a" (Value.vInt (-1)) [] c3M (by decide) (by decide) (by decide)

/-! ### Claim C5 -/

/-- Scenario input for C5: valid rating, only the turbine-count check
fails, so the error map is non-empty going into the orchestrator. -/
def c5Sam : Dict :=
  [("num_turbines", Value.vInt 5), ("turbine_rating_MW", Value.vFloat (3 / 2)),
   ("labor_cost_multiplier", Value.vInt 1), ("hub_height_meters", Value.vInt 80),
   ("rotor_diameter_m", Value.vInt 77)]

/-- C5, counterexample: on a scenario whose error map is non-empty after
validation (turbine count 5), `run_landbosse` still reaches the
`Manager.execute_landbosse` call — the invocation flag of the completed
run is `true`; there is no short-circuit before the orchestrator. -/
theorem c5_counterexample :
    (finalMaster (fun d => d) c5Sam [] (Except.ok (Value.vInt 0))).map (fun m => m.error)
      = some [("TurbineNumberError", turbineNumberMsg)] ∧
    run_landbosse (fun d => d) (fun _ => []) c5Sam [] (Except.ok (Value.vInt 0))
      = some ([("errors", RVal.errs ["Error in TurbineNumberError: " ++ turbineNumberMsg])],
          true) := by
  with_unfolding_all decide

/-- C5 (amended): `run_landbosse` never short-circuits on a non-empty
error map: whenever the stages before the orchestrator complete, the
orchestrator is invoked (flag `true`) — also when the error map is
non-empty — and the error map only selects the error report as the
returned result. -/
theorem c5_run_with_errors_invokes_orchestrator
    (geom orch : Dict → Dict) (sam fields0 : Dict) (wres : Except String Value) (m : Master)
    (hm : finalMaster geom sam fields0 wres = some m)
    (he : m.error ≠ []) :
    run_landbosse geom orch sam fields0 wres
      = some ([("errors", RVal.errs (errorLines m.error))], true) := by
  have hni : m.error.isEmpty = false := by
    cases herr : m.error with
    | nil => exact absurd herr he
    | cons p l => rfl
  unfold run_landbosse
  rw [hm]
  simp only [someBind]
  simp only [buildResults, hni]
  rfl

/-- Master state before the orchestrator call on the C5 input. -/
def c5M : Master :=
  (finalMaster (fun d => d) c5Sam [] (Except.ok (Value.vInt 0))).getD
    { fields := [], error := [] }

/-- C5 witness: the amended theorem applied to the concrete erroring
scenario. -/
theorem c5_run_with_errors_witness :
    run_landbosse (fun d => d) (fun _ => []) c5Sam [] (Except.ok (Value.vInt 0))
      = some ([("errors", RVal.errs (errorLines c5M.error))], true) :=
  c5_run_with_errors_invokes_orchestrator (fun d => d) (fun _ => []) c5Sam []
    (Except.ok (Value.vInt 0)) c5M (by with_unfolding_all decide)
    (by with_unfolding_all decide)

/-! ### Claim C8 -/

theorem geometryStage_error {geom : Dict → Dict} {m m' : Master}
    (h : geometryStage geom m = some m') : m'.error = m.error := by
  unfold geometryStage at h
  obtain ⟨_, _, h⟩ := optionBind_eq_some h
  obtain ⟨_, _, h⟩ := optionBind_eq_some h
  obtain ⟨_, _, h⟩ := optionBind_eq_some h
  rw [(Option.some.inj h).symm]

/-- C8: a failure of the weather-window normalization stage (outcome
`Except.error e`) is recorded under `'Weather_Data'` in the error map and
is not propagated: the run continues past the weather stage, reaches the
orchestrator (flag `true`) and returns normally, reporting the weather
error in the `'errors'` list. -/
theorem c8_weather_failure_caught
    (geom orch : Dict → Dict) (sam fields0 : Dict) (e : String) (m4 m6 : Master)
    (hv : overrideAndValidate sam fields0 = some m4)
    (hg : geometryStage geom (weatherStage (Except.error e) m4) = some m6) :
    getKV m6.error "Weather_Data" = some e ∧
    run_landbosse geom orch sam fields0 (Except.error e)
      = some ([("errors", RVal.errs (errorLines m6.error))], true) := by
  have hfm : finalMaster geom sam fields0 (Except.error e) = some m6 := by
    unfold finalMaster
    rw [hv]
    simp only [someBind]
    exact hg
  have hge : m6.error = setKV m4.error "Weather_Data" e := by
    have h1 := geometryStage_error hg
    simpa [weatherStage] using h1
  refine ⟨by rw [hge]; exact getKV_setKV_self _ _ _, ?_⟩
  have hne : m6.error ≠ [] := by
    rw [hge]
    exact setKV_ne_nil _ _ _
  have hni : m6.error.isEmpty = false := by
    cases herr : m6.error with
    | nil => exact absurd herr hne
    | cons p l => rfl
  unfold run_landbosse
  rw [hfm]
  simp only [someBind]
  simp only [buildResults, hni]
  rfl

/-- A scenario input passing every validation check. -/
def goodSam : Dict :=
  [("num_turbines", Value.vInt 100), ("turbine_rating_MW", Value.vInt 2),
   ("labor_cost_multiplier", Value.vInt 1), ("hub_height_meters", Value.vInt 80),
   ("rotor_diameter_m", Value.vInt 77)]

/-- Master state after validation on `goodSam` (no errors). -/
def c8M4 : Master := (overrideAndValidate goodSam []).getD { fields := [], error := [] }

/-- Master state before the orchestrator after a failed weather stage. -/
def c8M6 : Master :=
  (geometryStage (fun d => d)
      (weatherStage (Except.error "weather file could not be parsed") c8M4)).getD
    { fields := [], error := [] }

/-- C8 witness: the theorem applied to a concrete valid scenario whose
weather stage fails. -/
theorem c8_weather_failure_caught_witness :
    getKV c8M6.error "Weather_Data" = some "weather file could not be parsed" ∧
    run_landbosse (fun d => d) (fun _ => []) goodSam []
        (Except.error "weather file could not be parsed")
      = some ([("errors", RVal.errs (errorLines c8M6.error))], true) :=
  c8_weather_failure_caught (fun d => d) (fun _ => []) goodSam []
    "weather file could not be parsed" c8M4 c8M6 (by decide) (by decide)

/-! ### Claims C9 and C10: the result projector -/

theorem getKV_cons_ne {α : Type} {k' k : String} (v : α) (l : List (String × α))
    (h : k' ≠ k) : getKV ((k', v) :: l) k = getKV l k := by
  simp [getKV, h]

theorem getKV_append_of_some {α : Type} {l₁ : List (String × α)} (l₂ : List (String × α))
    {k : String} {v : α} (h : getKV l₁ k = some v) : getKV (l₁ ++ l₂) k = some v := by
  induction l₁ with
  | nil => simp [getKV] at h
  | cons p rest ih =>
      obtain ⟨k', v'⟩ := p
      by_cases hk : k' = k
      · simpa [getKV, hk] using h
      · simp only [getKV, if_neg hk] at h
        simpa [getKV, hk] using ih h

theorem fieldsFromOut_keys {out : Dict} :
    ∀ {specs : List (String × String)} {l : RDict},
      fieldsFromOut out specs = some l → l.map Prod.fst = specs.map Prod.fst := by
  intro specs
  induction specs with
  | nil =>
      intro l h
      obtain rfl := (Option.some.inj h).symm
      rfl
  | cons p rest ih =>
      intro l h
      obtain ⟨kp, op⟩ := p
      unfold fieldsFromOut at h
      obtain ⟨v, hv, h⟩ := optionBind_eq_some h
      obtain ⟨tail, htail, h⟩ := optionBind_eq_some h
      obtain rfl := (Option.some.inj h).symm
      simp [List.map_cons, ih htail]

theorem devPart_cases {mfields out : Dict} {dev : RDict}
    (h : devPart mfields out = some dev) :
    ((getKV out "Development labor cost USD").isSome = true ∧
        ∃ dv, getKV mfields "development_labor_cost_usd" = some dv ∧
          dev = [("development_equipment_rental_usd", RVal.v dv)]) ∨
      ((getKV out "Development labor cost USD").isSome = false ∧ dev = []) := by
  unfold devPart at h
  by_cases hg : (getKV out "Development labor cost USD").isSome = true
  · rw [if_pos hg] at h
    obtain ⟨dv, hdv, h⟩ := optionBind_eq_some h
    exact Or.inl ⟨hg, dv, hdv, (Option.some.inj h).symm⟩
  · rw [if_neg hg] at h
    exact Or.inr ⟨by simpa using hg, (Option.some.inj h).symm⟩

theorem buildResults_success {mfields out : Dict} {r : RDict}
    (h : buildResults mfields [] out = some r) :
    ∃ a dev b, fieldsFromOut out specsA = some a ∧ fieldsFromOut out specsB = some b ∧
      devPart mfields out = some dev ∧
      r = ("errors", RVal.errs []) :: (a ++ dev ++ devZeros ++ b) := by
  unfold buildResults at h
  rw [if_pos (show ([] : List (String × String)).isEmpty = true from rfl)] at h
  obtain ⟨a, ha, h⟩ := optionBind_eq_some h
  obtain ⟨dev, hdev, h⟩ := optionBind_eq_some h
  obtain ⟨b, hb, h⟩ := optionBind_eq_some h
  exact ⟨a, dev, b, ha, hb, hdev, (Option.some.inj h).symm⟩

theorem run_landbosse_buildResults {geom orch : Dict → Dict} {sam fields0 : Dict}
    {wres : Except String Value} {m : Master} {r : RDict} {b : Bool}
    (hm : finalMaster geom sam fields0 wres = some m)
    (hr : run_landbosse geom orch sam fields0 wres = some (r, b)) :
    buildResults m.fields m.error (orch m.fields) = some r ∧ b = true := by
  unfold run_landbosse at hr
  rw [hm] at hr
  simp only [someBind] at hr
  obtain ⟨r', hbr, hp⟩ := optionBind_eq_some hr
  have hrb : r' = r ∧ true = b := by
    have := Option.some.inj hp
    exact ⟨congrArg Prod.fst this, congrArg Prod.snd this⟩
  obtain ⟨rfl, hb⟩ := hrb
  exact ⟨hbr, hb.symm⟩

/-- C9: every completed run of `run_landbosse` whose error map is empty
returns a result dictionary that still contains the key `'errors'` —
mapped to the empty list — alongside `'total_bos_cost'` and the
per-category cost totals: the success output shares the error-report
shape. -/
theorem c9_success_output_has_errors_key
    (geom orch : Dict → Dict) (sam fields0 : Dict) (wres : Except String Value)
    (m : Master) (r : RDict) (b : Bool)
    (hm : finalMaster geom sam fields0 wres = some m)
    (he : m.error = [])
    (hr : run_landbosse geom orch sam fields0 wres = some (r, b)) :
    getKV r "errors" = some (RVal.errs []) ∧
    (getKV r "total_bos_cost").isSome = true ∧
    (getKV r "total_management_cost").isSome = true ∧
    (getKV r "total_development_cost").isSome = true ∧
    (getKV r "total_sitepreparation_cost").isSome = true ∧
    (getKV r "total_foundation_cost").isSome = true ∧
    (getKV r "total_erection_cost").isSome = true ∧
    (getKV r "total_gridconnection_cost").isSome = true ∧
    (getKV r "total_collection_cost").isSome = true ∧
    (getKV r "total_substation_cost").isSome = true := by
  obtain ⟨hbr, _⟩ := run_landbosse_buildResults hm hr
  rw [he] at hbr
  obtain ⟨a, dev, b', ha, hb', hdev, rfl⟩ := buildResults_success hbr
  have hka : a.map Prod.fst = specsA.map Prod.fst := fieldsFromOut_keys ha
  have hkb : b'.map Prod.fst = specsB.map Prod.fst := fieldsFromOut_keys hb'
  have hInA : ∀ k : String, k ∈ specsA.map Prod.fst →
      (getKV (("errors", RVal.errs []) :: (a ++ dev ++ devZeros ++ b')) k).isSome = true := by
    intro k hk
    apply isSome_getKV_cons
    apply isSome_getKV_append_left
    apply isSome_getKV_append_left
    apply isSome_getKV_append_left
    exact isSome_getKV_of_mem (by rw [hka]; exact hk)
  have hInB : ∀ k : String, k ∈ specsB.map Prod.fst →
      (getKV (("errors", RVal.errs []) :: (a ++ dev ++ devZeros ++ b')) k).isSome = true := by
    intro k hk
    apply isSome_getKV_cons
    apply isSome_getKV_append_right
    exact isSome_getKV_of_mem (by rw [hkb]; exact hk)
  refine ⟨by simp [getKV], hInA _ (by decide), hInA _ (by decide), hInA _ (by decide),
    hInB _ (by decide), hInB _ (by decide), hInB _ (by decide), hInB _ (by decide),
    hInB _ (by decide), hInB _ (by decide)⟩

/-- C10: in every successful (empty-error) completed run, the returned
`development_labor_usd`, `development_material_usd` and
`development_mobilization_usd` fields are the literal `0` regardless of
the orchestrator's output, and `development_equipment_rental_usd` is
present exactly when the orchestrator's output map contains
`'Development labor cost USD'`. -/
theorem c10_development_fields
    (geom orch : Dict → Dict) (sam fields0 : Dict) (wres : Except String Value)
    (m : Master) (r : RDict) (b : Bool)
    (hm : finalMaster geom sam fields0 wres = some m)
    (he : m.error = [])
    (hr : run_landbosse geom orch sam fields0 wres = some (r, b)) :
    getKV r "development_labor_usd" = some (RVal.v (Value.vInt 0)) ∧
    getKV r "development_material_usd" = some (RVal.v (Value.vInt 0)) ∧
    getKV r "development_mobilization_usd" = some (RVal.v (Value.vInt 0)) ∧
    ((getKV r "development_equipment_rental_usd").isSome = true ↔
      (getKV (orch m.fields) "Development labor cost USD").isSome = true) := by
  obtain ⟨hbr, _⟩ := run_landbosse_buildResults hm hr
  rw [he] at hbr
  obtain ⟨a, dev, b', ha, hb', hdev, rfl⟩ := buildResults_success hbr
  have hka : a.map Prod.fst = specsA.map Prod.fst := fieldsFromOut_keys ha
  have hkb : b'.map Prod.fst = specsB.map Prod.fst := fieldsFromOut_keys hb'
  have hdevnone : ∀ k : String, k ≠ "development_equipment_rental_usd" →
      getKV dev k = none := by
    intro k hk
    rcases devPart_cases hdev with ⟨_, dv, _, rfl⟩ | ⟨_, rfl⟩
    · exact getKV_none_of_not_mem (by simpa using hk)
    · rfl
  have hmain : ∀ (k : String) (v : RVal), k ≠ "errors" → k ∉ specsA.map Prod.fst →
      k ≠ "development_equipment_rental_usd" → getKV devZeros k = some v →
      getKV (("errors", RVal.errs []) :: (a ++ dev ++ devZeros ++ b')) k = some v := by
    intro k v hke hkA hkd hkz
    rw [getKV_cons_ne _ _ fun hc => hke hc.symm]
    rw [List.append_assoc, List.append_assoc]
    rw [getKV_append_of_none _ (getKV_none_of_not_mem (by rw [hka]; exact hkA))]
    rw [getKV_append_of_none _ (hdevnone k hkd)]
    exact getKV_append_of_some _ hkz
  refine ⟨hmain _ _ (by decide) (by decide) (by decide) (by decide),
    hmain _ _ (by decide) (by decide) (by decide) (by decide),
    hmain _ _ (by decide) (by decide) (by decide) (by decide), ?_, ?_⟩
  · intro hsome
    rcases devPart_cases hdev with ⟨hg, _⟩ | ⟨hg, rfl⟩
    · exact hg
    · have hnone : getKV (("errors", RVal.errs []) :: (a ++ [] ++ devZeros ++ b'))
          "development_equipment_rental_usd" = none := by
        rw [getKV_cons_ne _ _ (by decide)]
        rw [List.append_assoc, List.append_assoc]
        rw [getKV_append_of_none _ (getKV_none_of_not_mem (by rw [hka]; decide))]
        rw [getKV_append_of_none _
          (show getKV ([] : RDict) "development_equipment_rental_usd" = none from rfl)]
        rw [getKV_append_of_none _ (getKV_none_of_not_mem (by decide))]
        exact getKV_none_of_not_mem (by rw [hkb]; decide)
      rw [hnone] at hsome
      exact Bool.noConfusion hsome
  · intro hg
    rcases devPart_cases hdev with ⟨_, dv, _, rfl⟩ | ⟨hg', _⟩
    · have hsome : getKV (("errors", RVal.errs [])
          :: (a ++ [("development_equipment_rental_usd", RVal.v dv)] ++ devZeros ++ b'))
          "development_equipment_rental_usd" = some (RVal.v dv) := by
        rw [getKV_cons_ne _ _ (by decide)]
        rw [List.append_assoc, List.append_assoc]
        rw [getKV_append_of_none _ (getKV_none_of_not_mem (by rw [hka]; decide))]
        exact getKV_append_of_some _ (by simp [getKV])
      rw [hsome]
      rfl
    · rw [hg] at hg'
      exact Bool.noConfusion hg'

/-- An orchestrator output holding every key the result projector reads
(without `'Development labor cost USD'`). -/
def outGood : Dict :=
  [("project_value_usd", Value.vInt 1), ("total_management_cost", Value.vInt 1),
   ("insurance_usd", Value.vInt 1), ("construction_permitting_usd", Value.vInt 1),
   ("project_management_usd", Value.vInt 1), ("bonding_usd", Value.vInt 1),
   ("markup_contingency_usd", Value.vInt 1), ("engineering_usd", Value.vInt 1),
   ("site_facility_usd", Value.vInt 1), ("summed_development_cost", Value.vInt 1),
   ("summed_sitepreparation_cost", Value.vInt 1),
   ("sitepreparation_equipment_rental_usd", Value.vInt 1),
   ("sitepreparation_labor_usd", Value.vInt 1), ("sitepreparation_material_usd", Value.vInt 1),
   ("sitepreparation_mobilization_usd", Value.vInt 1), ("summed_foundation_cost", Value.vInt 1),
   ("foundation_equipment_rental_usd", Value.vInt 1), ("foundation_labor_usd", Value.vInt 1),
   ("foundation_material_usd", Value.vInt 1), ("foundation_mobilization_usd", Value.vInt 1),
   ("total_cost_summed_erection", Value.vInt 1), ("erection_equipment_rental_usd", Value.vInt 1),
   ("erection_labor_usd", Value.vInt 1), ("erection_material_usd", Value.vInt 1),
   ("erection_other_usd", Value.vInt 1), ("erection_mobilization_usd", Value.vInt 1),
   ("erection_fuel_usd", Value.vInt 1), ("trans_dist_usd", Value.vInt 1),
   ("summed_collection_cost", Value.vInt 1), ("collection_equipment_rental_usd", Value.vInt 1),
   ("collection_labor_usd", Value.vInt 1), ("collection_material_usd", Value.vInt 1),
   ("collection_mobilization_usd", Value.vInt 1), ("summed_substation_cost", Value.vInt 1)]

/-- Master state before the orchestrator on the all-valid scenario. -/
def c9M : Master :=
  (finalMaster (fun d => d) goodSam [] (Except.ok (Value.vInt 0))).getD
    { fields := [], error := [] }

/-- Result dictionary of the successful concrete run. -/
def c9R : RDict :=
  ((run_landbosse (fun d => d) (fun _ => outGood) goodSam [] (Except.ok (Value.vInt 0))).getD
    ([], false)).1

/-- C9 witness: the theorem applied to a concrete successful run. -/
theorem c9_success_output_witness :
    getKV c9R "errors" = some (RVal.errs []) ∧
    (getKV c9R "total_bos_cost").isSome = true ∧
    (getKV c9R "total_management_cost").isSome = true ∧
    (getKV c9R "total_development_cost").isSome = true ∧
    (getKV c9R "total_sitepreparation_cost").isSome = true ∧
    (getKV c9R "total_foundation_cost").isSome = true ∧
    (getKV c9R "total_erection_cost").isSome = true ∧
    (getKV c9R "total_gridconnection_cost").isSome = true ∧
    (getKV c9R "total_collection_cost").isSome = true ∧
    (getKV c9R "total_substation_cost").isSome = true :=
  c9_success_output_has_errors_key (fun d => d) (fun _ => outGood) goodSam []
    (Except.ok (Value.vInt 0)) c9M c9R true (by decide) (by decide) (by decide)

/-- C10 witness: the theorem applied to the same successful run, whose
orchestrator output lacks `'Development labor cost USD'`. -/
theorem c10_development_fields_witness :
    getKV c9R "development_labor_usd" = some (RVal.v (Value.vInt 0)) ∧
    getKV c9R "development_material_usd" = some (RVal.v (Value.vInt 0)) ∧
    getKV c9R "development_mobilization_usd" = some (RVal.v (Value.vInt 0)) ∧
    ((getKV c9R "development_equipment_rental_usd").isSome = true ↔
      (getKV outGood "Development labor cost USD").isSome = true) :=
  c10_development_fields (fun d => d) (fun _ => outGood) goodSam []
    (Except.ok (Value.vInt 0)) c9M c9R true (by decide) (by decide) (by decide)

/-! ### Claim C6 -/

/-- The conventional segment as the spec describes it: the input rows,
costs unchanged, tagged `'Conventional'`. -/
def conventionalRows (df : List CostRow) : List ModRow :=
  df.map fun r => { toCostRow := r, modifications := "Conventional" }

/-- One 50% branch as the spec describes it: a full copy of every input
row tagged `'<module_alias> 50%'`, with only the rows whose `Module`
equals `'<module_alias>Cost'` getting their cost halved. -/
def branchRows (module_alias : String) (df : List CostRow) : List ModRow :=
  df.map fun r =>
    { toCostRow :=
        if r.module = module_alias ++ "Cost" then { r with cost := r.cost * (1 / 2) } else r,
      modifications := module_alias ++ " 50%" }

theorem foldl_append_map {α β : Type} (g : α → β) (l : List α) :
    ∀ acc : List β, List.foldl (fun acc2 row => acc2 ++ [g row]) acc l = acc ++ l.map g := by
  induction l with
  | nil => intro acc; simp
  | cons x xs ih => intro acc; simp [ih]

theorem branchRow_conv (module_alias : String) (r : CostRow) :
    branchRow module_alias { toCostRow := r, modifications := "Conventional" }
      = { toCostRow :=
            if r.module = module_alias ++ "Cost" then { r with cost := r.cost * (1 / 2) }
            else r,
          modifications := module_alias ++ " 50%" } := by
  unfold branchRow
  by_cases h : r.module = module_alias ++ "Cost" <;> simp [h]

theorem preprocess_eq_branches (df : List CostRow) :
    preprocess_bos_module_cost df
      = conventionalRows df ++ branchRows "Erection" df ++ branchRows "Foundation" df := by
  unfold preprocess_bos_module_cost
  simp only [List.foldl_cons, List.foldl_nil, foldl_append_map, List.nil_append,
    List.map_map]
  rw [List.append_assoc]
  unfold conventionalRows branchRows
  congr 1
  congr 1
  · exact List.map_congr_left fun r _ => branchRow_conv "Erection" r
  · exact List.map_congr_left fun r _ => branchRow_conv "Foundation" r

/-- C6: for an input of `n` cost line items, `preprocess_bos_module_cost`
returns `(1 + 2) · n` rows: the `n` input rows unchanged and tagged
`'Conventional'`, then — for each of the two target modules `'Erection'`
and `'Foundation'` — one full copy of every row tagged
`'<module> 50%'`, in which exactly the rows whose `Module` equals the
target module's cost column (`'<module>Cost'`) have `Cost per project`
multiplied by 0.5 and every other row keeps its original cost. -/
theorem c6_preprocess_structure (df : List CostRow) :
    (preprocess_bos_module_cost df).length = (1 + 2) * df.length ∧
    preprocess_bos_module_cost df
      = conventionalRows df ++ branchRows "Erection" df ++ branchRows "Foundation" df := by
  have heq := preprocess_eq_branches df
  refine ⟨?_, heq⟩
  rw [heq]
  simp only [List.length_append, conventionalRows, branchRows, List.length_map]
  ring

/-! ### Claims C4 and C7 -/

/-- AEP fixture: one turbine class (3 kW rating, 77 m rotor, 80 m hub;
the magnitudes are kept tiny so the fixture evaluates cheaply). -/
def aep4 : List AepRow := [⟨3, 77, 80, 4⟩]

/-- TCC fixture matching `aep4`'s key. -/
def tcc4 : List TccRow := [⟨3, 77, 80, 5⟩]

/-- BOS fixture whose rating (0.007 MW → 7 kW) matches no AEP/TCC key. -/
def bos4 : List CostRow := [⟨2, 7 / 1000, 80, 1, 0, 77, 7, "FoundationCost"⟩]

deriving instance DecidableEq for Except

/-- C4, counterexample: with a non-empty AEP⋈TCC join and a non-empty
grouped BOS table whose keys do not overlap the AEP⋈TCC keys, the final
join is empty, yet `main` raises nothing and returns the empty LCOE table:
the second check tests `len(bos_sum)`, not the final join. -/
theorem c4_counterexample :
    lcoe_main aep4 tcc4 bos4 = Except.ok [] ∧
    mergeAepTcc aep4 tcc4 ≠ [] ∧
    groupSum (preprocess_bos_module_cost bos4) ≠ [] ∧
    mergeLcoe (mergeAepTcc aep4 tcc4) (groupSum (preprocess_bos_module_cost bos4)) = [] := by
  set_option maxRecDepth 8000 in
  with_unfolding_all decide

/-- C4 (amended): `main` fails fatally exactly when the AEP⋈TCC join is
empty or the grouped BOS table is empty; the check after the final join
tests `bos_sum` rather than the joined result, so an empty final join
with a non-empty grouped BOS table is passed silently to the LCOE
computation. -/
theorem c4_main_error_iff (aep : List AepRow) (tcc : List TccRow) (bos : List CostRow) :
    (∃ e, lcoe_main aep tcc bos = Except.error e) ↔
      (mergeAepTcc aep tcc = [] ∨ groupSum (preprocess_bos_module_cost bos) = []) := by
  simp only [lcoe_main]
  by_cases h1 : (mergeAepTcc aep tcc).length = 0
  · rw [if_pos h1]
    simp [List.length_eq_zero.mp h1]
  · rw [if_neg h1]
    by_cases h2 : (groupSum (preprocess_bos_module_cost bos)).length = 0
    · rw [if_pos h2]
      simp [List.length_eq_zero.mp h2]
    · rw [if_neg h2]
      constructor
      · rintro ⟨e, he⟩
        exact Except.noConfusion he
      · rintro (h | h)
        · exact absurd (by rw [h]; rfl : (mergeAepTcc aep tcc).length = 0) h1
        · exact absurd
            (by rw [h]; rfl : (groupSum (preprocess_bos_module_cost bos)).length = 0) h2

/-- C7: on every row of a successfully produced LCOE table, the computed
columns satisfy `FCR = 0.079`, `Opex rate = 52.0`,
`Total Opex = 52 · rating · turbine count`,
`Turbine Capex = TCC · rating · turbine count` and
`LCOE = ((BOS Capex + Turbine Capex) · 0.079 + Total Opex)
/ (AEP · turbine count)`. -/
theorem c7_lcoe_row_formulas
    (aep : List AepRow) (tcc : List TccRow) (bos : List CostRow)
    (rows : List LcoeRow) (r : LcoeRow)
    (hm : lcoe_main aep tcc bos = Except.ok rows) (hr : r ∈ rows) :
    r.fcr = 79 / 1000 ∧ r.opexRate = 52 ∧
    r.totalOpex = 52 * r.rating * r.numTurbines ∧
    r.turbineCapex = r.tcc * r.rating * r.numTurbines ∧
    r.lcoe = ((r.bosCapex + r.turbineCapex) * (79 / 1000) + r.totalOpex)
      / (r.aep * r.numTurbines) := by
  simp only [lcoe_main] at hm
  split at hm
  · exact Except.noConfusion hm
  · split at hm
    · exact Except.noConfusion hm
    · obtain rfl := (Except.ok.inj hm).symm
      obtain ⟨p, hp, rfl⟩ := List.mem_map.mp hr
      exact ⟨rfl, rfl, rfl, rfl, rfl⟩

/-- BOS fixture with one row, matching `aep7`'s key (0.001 MW → 1 kW). -/
def bos7 : List CostRow := [⟨1, 1 / 1000, 1, 1, 0, 1, 1, "X"⟩]

/-- AEP fixture for the C7 witness. -/
def aep7 : List AepRow := [⟨1, 1, 1, 1⟩]

/-- TCC fixture for the C7 witness. -/
def tcc7 : List TccRow := [⟨1, 1, 1, 1⟩]

/-- The branched BOS rows of `bos7`. -/
def bos7p : List ModRow :=
  [⟨⟨1, 1 / 1000, 1, 1, 0, 1, 1, "X"⟩, "Conventional"⟩,
   ⟨⟨1, 1 / 1000, 1, 1, 0, 1, 1, "X"⟩, "Erection 50%"⟩,
   ⟨⟨1, 1 / 1000, 1, 1, 0, 1, 1, "X"⟩, "Foundation 50%"⟩]

/-- The grouped BOS table of `bos7p`. -/
def bos7g : List BosSumRow :=
  [⟨⟨1, 1, 1, 1, 1, 0, "Conventional"⟩, 1⟩,
   ⟨⟨1, 1, 1, 1, 1, 0, "Erection 50%"⟩, 1⟩,
   ⟨⟨1, 1, 1, 1, 1, 0, "Foundation 50%"⟩, 1⟩]

/-- The AEP⋈TCC table of the C7 fixtures. -/
def at7 : List AtRow := [⟨1, 1, 1, 1, 1⟩]

/-- The joined row pairs of the C7 fixtures. -/
def pairs7 : List (AtRow × BosSumRow) :=
  [(⟨1, 1, 1, 1, 1⟩, ⟨⟨1, 1, 1, 1, 1, 0, "Conventional"⟩, 1⟩),
   (⟨1, 1, 1, 1, 1⟩, ⟨⟨1, 1, 1, 1, 1, 0, "Erection 50%"⟩, 1⟩),
   (⟨1, 1, 1, 1, 1⟩, ⟨⟨1, 1, 1, 1, 1, 0, "Foundation 50%"⟩, 1⟩)]

/-- The LCOE table of the C7 fixtures. -/
def lcoeRows7 : List LcoeRow := pairs7.map computeCols

/-- The `'Conventional'` row of that table. -/
def lcoeRow7 : LcoeRow :=
  computeCols (⟨1, 1, 1, 1, 1⟩, ⟨⟨1, 1, 1, 1, 1, 0, "Conventional"⟩, 1⟩)

set_option maxRecDepth 3000 in
theorem preprocess_eval7 : preprocess_bos_module_cost bos7 = bos7p := by
  with_unfolding_all decide

set_option maxRecDepth 3000 in
theorem groupSum_eval7 : groupSum bos7p = bos7g := by
  with_unfolding_all decide

set_option maxRecDepth 3000 in
theorem mergeAepTcc_eval7 : mergeAepTcc aep7 tcc7 = at7 := by
  with_unfolding_all decide

set_option maxRecDepth 3000 in
theorem mergeLcoe_eval7 : mergeLcoe at7 bos7g = pairs7 := by
  with_unfolding_all decide

theorem lcoe_main_eval7 : lcoe_main aep7 tcc7 bos7 = Except.ok lcoeRows7 := by
  simp only [lcoe_main]
  rw [preprocess_eval7, groupSum_eval7, mergeAepTcc_eval7]
  rw [if_neg (by decide : ¬ (at7.length = 0))]
  rw [mergeLcoe_eval7]
  rw [if_neg (by decide : ¬ (bos7g.length = 0))]
  rfl

/-- C7 witness: the theorem applied to the concrete matched fixtures and
the Conventional row of their LCOE table. -/
theorem c7_lcoe_row_formulas_witness :
    lcoeRow7.fcr = 79 / 1000 ∧ lcoeRow7.opexRate = 52 ∧
    lcoeRow7.totalOpex = 52 * lcoeRow7.rating * lcoeRow7.numTurbines ∧
    lcoeRow7.turbineCapex = lcoeRow7.tcc * lcoeRow7.rating * lcoeRow7.numTurbines ∧
    lcoeRow7.lcoe = ((lcoeRow7.bosCapex + lcoeRow7.turbineCapex) * (79 / 1000)
        + lcoeRow7.totalOpex) / (lcoeRow7.aep * lcoeRow7.numTurbines) :=
  c7_lcoe_row_formulas aep7 tcc7 bos7 lcoeRows7 lcoeRow7
    lcoe_main_eval7
    (by unfold lcoeRows7 pairs7; exact List.mem_map_of_mem computeCols (by simp))
